import Mathlib

/-!
Verification of the Digital Wallet System core (wallet ledger, transaction
processing, fraud-rule engine, daily scan job) against its specification.

The JavaScript sources are shallowly embedded: MongoDB collections become
Lean lists, async route handlers become pure functions returning
Except-valued results (an aborted Mongo session or an early error return
corresponds to an error value carrying no new state), timestamps are
integer milliseconds, and monetary amounts are rationals (fixed-point
decimals per the data model; the JS numbers are used for exact decimal
arithmetic here).
-/

namespace DigitalWallet

/-- Transaction kind, mirroring the enum in the transaction schema. -/
inductive TxnType where
  | deposit
  | withdrawal
  | transfer
deriving DecidableEq, Repr

/-- Transaction status enum from the transaction schema. -/
inductive TxnStatus where
  | pending
  | completed
  | failed
  | cancelled
deriving DecidableEq, Repr

/-- Flag reason enum from the transaction schema. -/
inductive FlagReason where
  | high_frequency
  | large_amount
  | suspicious_pattern
  | manual_review
deriving DecidableEq, Repr

/-- One transaction record (models/Transaction.js). User ids are numbers
standing in for ObjectIds; createdAt is an integer millisecond timestamp. -/
structure Txn where
  fromUserId : Option Nat
  toUserId : Option Nat
  type : TxnType
  amount : Rat
  currency : String
  status : TxnStatus
  isFlagged : Bool
  flagReason : Option FlagReason
  isDeleted : Bool
  createdAt : Int
deriving DecidableEq, Repr

/-- One (currency, amount) entry of a wallet balance array. -/
structure BalanceEntry where
  currency : String
  amount : Rat
deriving DecidableEq, Repr

/-- A wallet document (models/Wallet.js): one owner, a balance array and a
soft-delete flag. -/
structure Wallet where
  userId : Nat
  balances : List BalanceEntry
  isDeleted : Bool
deriving DecidableEq, Repr

/-- The persistent state the routes operate on: the wallet collection and
the transaction collection. -/
structure WState where
  wallets : List Wallet
  log : List Txn
deriving DecidableEq, Repr

/-! ## Fraud detection service (services/fraudDetection.js) -/

/-- FRAUD_RULES.SUSPICIOUS_PATTERN_TIME_WINDOW: one hour in milliseconds. -/
def msPerHour : Int := 3600000

/-- Result pair returned by checkFraudRules. -/
structure FraudCheck where
  isFlagged : Bool
  flagReason : Option FlagReason
deriving DecidableEq, Repr

/-- The countDocuments query of fraud rule 1: non-deleted records created at
or after the cutoff where the user is source or destination. -/
def countRecent (log : List Txn) (u : Nat) (since : Int) : Nat :=
  (log.filter (fun tx =>
    (tx.fromUserId == some u || tx.toUserId == some u)
      && decide (since ≤ tx.createdAt) && !tx.isDeleted)).length

/-- The find query of fraud rule 3: non-deleted withdrawals by the user
created at or after the cutoff. -/
def recentWithdrawals (log : List Txn) (u : Nat) (since : Int) : List Txn :=
  log.filter (fun tx =>
    tx.fromUserId == some u && tx.type == TxnType.withdrawal
      && decide (since ≤ tx.createdAt) && !tx.isDeleted)

/-- The reduce in fraud rule 3 summing the amounts of the recent
withdrawals. -/
def totalWithdrawn (log : List Txn) (u : Nat) (since : Int) : Rat :=
  (recentWithdrawals log u since).foldl (fun s tx => s + tx.amount) 0

/-- checkFraudRules with the transaction store reachable: rule 1
(high frequency), then rule 2 (large amount), then rule 3 (suspicious
withdrawal pattern), else not flagged. The alert emails are fire-and-forget
side effects with no bearing on the returned value and are not modelled. -/
def checkFraudRulesOk (log : List Txn) (u : Nat) (ttype : TxnType)
    (amount : Rat) (now : Int) : FraudCheck :=
  let oneHourAgo := now - msPerHour
  if countRecent log u oneHourAgo ≥ 5 then
    ⟨true, some FlagReason.high_frequency⟩
  else if amount ≥ 10000 then
    ⟨true, some FlagReason.large_amount⟩
  else if ttype == TxnType.withdrawal then
    if (recentWithdrawals log u oneHourAgo).length ≥ 3
        ∧ totalWithdrawn log u oneHourAgo ≥ 5000 then
      ⟨true, some FlagReason.suspicious_pattern⟩
    else ⟨false, none⟩
  else ⟨false, none⟩

/-- checkFraudRules including its try/catch: the store is an Except value,
and any query failure is caught and degraded to a not-flagged result. -/
def checkFraudRules (fetch : Except String (List Txn)) (u : Nat)
    (ttype : TxnType) (amount : Rat) (now : Int) : FraudCheck :=
  match fetch with
  | Except.error _ => ⟨false, none⟩
  | Except.ok log => checkFraudRulesOk log u ttype amount now

/-! ## Wallet route handlers (routes/wallet.js) -/

/-- Error outcomes of the route handlers. internalError models a thrown
exception caught by the handler (the Mongo session is aborted, a 500 is
returned and nothing is persisted). -/
inductive WalletErr where
  | insufficientFunds
  | walletNotFound
  | selfTransfer
  | internalError
deriving DecidableEq, Repr

/-- Wallet.findOne on userId (no soft-delete filter, as in the deposit,
withdraw and transfer handlers): first wallet with the given owner. -/
def findWallet : List Wallet → Nat → Option Wallet
  | [], _ => none
  | w :: ws, u => if w.userId == u then some w else findWallet ws u

/-- Saving a fetched wallet document back: replaces the first wallet with
the given userId. -/
def setWallet : List Wallet → Nat → Wallet → List Wallet
  | [], _, _ => []
  | w :: ws, u, w' => if w.userId == u then w' :: ws else w :: setWallet ws u w'

/-- balances.find on a currency code: first entry with the currency. -/
def findEntry : List BalanceEntry → String → Option BalanceEntry
  | [], _ => none
  | b :: bs, c => if b.currency == c then some b else findEntry bs c

/-- Amount of the entry for a currency, an absent entry counting as zero. -/
def entryAmount (bs : List BalanceEntry) (c : String) : Rat :=
  ((findEntry bs c).map (fun b => b.amount)).getD 0

/-- Balance of a user in a currency over the whole state; zero when the
user has no wallet or no entry. -/
def getBalance (st : WState) (u : Nat) (c : String) : Rat :=
  match findWallet st.wallets u with
  | none => 0
  | some w => entryAmount w.balances c

/-- The credit step of deposit and transfer: add to the first entry with
the currency if one exists, else push a new entry at the end. -/
def creditBalances : List BalanceEntry → String → Rat → List BalanceEntry
  | [], c, a => [⟨c, a⟩]
  | b :: bs, c, a =>
    if b.currency == c then { b with amount := b.amount + a } :: bs
    else b :: creditBalances bs c a

/-- The debit step of withdraw and transfer: subtract from the first entry
with the currency (the handlers only reach this after checking the entry
exists and covers the amount). -/
def debitBalances : List BalanceEntry → String → Rat → List BalanceEntry
  | [], _, _ => []
  | b :: bs, c, a =>
    if b.currency == c then { b with amount := b.amount - a } :: bs
    else b :: debitBalances bs c a

/-- A new transaction document as the handlers build and finalize it
(status completed, not deleted, flag fields from the fraud check). -/
def mkTxn (src dst : Option Nat) (ty : TxnType) (a : Rat) (c : String)
    (fc : FraudCheck) (now : Int) : Txn :=
  { fromUserId := src, toUserId := dst, type := ty, amount := a,
    currency := c, status := TxnStatus.completed,
    isFlagged := fc.isFlagged, flagReason := fc.flagReason,
    isDeleted := false, createdAt := now }

/-- POST /api/wallet/deposit: fraud check, fetch the wallet (a missing
wallet makes the handler throw), credit the currency entry, persist wallet
and completed record. Returns the new state and the new balance. -/
def deposit (fetch : Except String (List Txn)) (st : WState) (u : Nat)
    (c : String) (a : Rat) (now : Int) : Except WalletErr (WState × Rat) :=
  let fc := checkFraudRules fetch u TxnType.deposit a now
  match findWallet st.wallets u with
  | none => Except.error WalletErr.internalError
  | some w =>
    let w' := { w with balances := creditBalances w.balances c a }
    let tx := mkTxn none (some u) TxnType.deposit a c fc now
    Except.ok (⟨setWallet st.wallets u w', st.log ++ [tx]⟩,
      entryAmount w'.balances c)

/-- POST /api/wallet/withdraw: fraud check, fetch the wallet (missing
wallet throws), reject with insufficient funds when the currency entry is
absent or smaller than the amount, else debit and persist. -/
def withdraw (fetch : Except String (List Txn)) (st : WState) (u : Nat)
    (c : String) (a : Rat) (now : Int) : Except WalletErr (WState × Rat) :=
  let fc := checkFraudRules fetch u TxnType.withdrawal a now
  match findWallet st.wallets u with
  | none => Except.error WalletErr.internalError
  | some w =>
    match findEntry w.balances c with
    | none => Except.error WalletErr.insufficientFunds
    | some b =>
      if b.amount < a then Except.error WalletErr.insufficientFunds
      else
        let w' := { w with balances := debitBalances w.balances c a }
        let tx := mkTxn (some u) none TxnType.withdrawal a c fc now
        Except.ok (⟨setWallet st.wallets u w', st.log ++ [tx]⟩, b.amount - a)

/-- POST /api/wallet/transfer: self-transfer check first, fraud check,
fetch both wallets (the receiver lookup has no soft-delete filter; a
missing receiver is a 404, a missing sender wallet throws), sender balance
check, debit sender, credit receiver, persist both and the record. -/
def transfer (fetch : Except String (List Txn)) (st : WState)
    (src dst : Nat) (c : String) (a : Rat) (now : Int) :
    Except WalletErr (WState × Rat) :=
  if src == dst then Except.error WalletErr.selfTransfer
  else
    let fc := checkFraudRules fetch src TxnType.transfer a now
    match findWallet st.wallets dst with
    | none => Except.error WalletErr.walletNotFound
    | some rw =>
      match findWallet st.wallets src with
      | none => Except.error WalletErr.internalError
      | some sw =>
        match findEntry sw.balances c with
        | none => Except.error WalletErr.insufficientFunds
        | some sb =>
          if sb.amount < a then Except.error WalletErr.insufficientFunds
          else
            let sw' := { sw with balances := debitBalances sw.balances c a }
            let rw' := { rw with balances := creditBalances rw.balances c a }
            let tx := mkTxn (some src) (some dst) TxnType.transfer a c fc now
            Except.ok
              (⟨setWallet (setWallet st.wallets src sw') dst rw',
                st.log ++ [tx]⟩, sb.amount - a)

/-- The pre-save hook of the wallet schema: a new wallet saved with an
empty balance array is seeded with a single zero USD entry. -/
def walletOnSave (isNew : Bool) (w : Wallet) : Wallet :=
  if isNew && w.balances.isEmpty then
    { w with balances := [⟨"USD", 0⟩] }
  else w

/-! ## Operation sequences -/

/-- One requested operation with its validated parameters and submission
time. -/
inductive Op where
  | dep (u : Nat) (c : String) (a : Rat) (now : Int)
  | wd (u : Nat) (c : String) (a : Rat) (now : Int)
  | tr (s d : Nat) (c : String) (a : Rat) (now : Int)
deriving DecidableEq, Repr

/-- The amount carried by an operation. -/
def Op.amount : Op → Rat
  | .dep _ _ a _ => a
  | .wd _ _ a _ => a
  | .tr _ _ _ a _ => a

/-- Running one operation: on success the committed state, on any error the
unchanged state (the handler aborted its session or returned before
writing). Fraud rules read the current transaction log. -/
def applyOp (st : WState) : Op → WState
  | .dep u c a t =>
    match deposit (Except.ok st.log) st u c a t with
    | Except.ok p => p.1
    | Except.error _ => st
  | .wd u c a t =>
    match withdraw (Except.ok st.log) st u c a t with
    | Except.ok p => p.1
    | Except.error _ => st
  | .tr s d c a t =>
    match transfer (Except.ok st.log) st s d c a t with
    | Except.ok p => p.1
    | Except.error _ => st

/-- Running a sequence of operations in order. -/
def runOps (st : WState) (ops : List Op) : WState :=
  ops.foldl applyOp st

/-- Every balance entry of every wallet is non-negative. -/
def AllNonneg (st : WState) : Prop :=
  ∀ w ∈ st.wallets, ∀ b ∈ w.balances, 0 ≤ b.amount

instance : DecidablePred AllNonneg := fun st => by
  unfold AllNonneg; infer_instance

/-! ## Daily fraud detection job (services/fraudDetection.js) -/

/-- The find query of the daily job: non-deleted records created in the
window. -/
def scanWindowTxns (log : List Txn) (s e : Int) : List Txn :=
  log.filter (fun tx =>
    decide (s ≤ tx.createdAt) && decide (tx.createdAt < e) && !tx.isDeleted)

/-- The user a record is attributed to by the daily job: the source when
present, otherwise the destination. -/
def attributedUser (tx : Txn) : Option Nat :=
  match tx.fromUserId with
  | some u => some u
  | none => tx.toUserId

/-- The per-user record count built by the daily job over the window. -/
def userTransactionCount (log : List Txn) (s e : Int) (u : Nat) : Nat :=
  ((scanWindowTxns log s e).filterMap attributedUser).count u

/-- The users the daily job reports with reason excessive_daily_transactions:
those whose attributed count exceeds 20. -/
def suspiciousUsers (log : List Txn) (s e : Int) : List Nat :=
  (((scanWindowTxns log s e).filterMap attributedUser).dedup).filter
    (fun u => userTransactionCount log s e u > 20)

/-- Number of window records in which a user participates as source or
destination (what the specification describes the job as counting). -/
def participantCount (log : List Txn) (s e : Int) (u : Nat) : Nat :=
  ((scanWindowTxns log s e).filter (fun tx =>
    tx.fromUserId == some u || tx.toUserId == some u)).length

/-! ## Helper lemmas -/

theorem findWallet_userId {ws : List Wallet} {u : Nat} {w : Wallet}
    (h : findWallet ws u = some w) : w.userId = u := by
  induction ws with
  | nil => simp [findWallet] at h
  | cons w0 ws ih =>
    by_cases hw : w0.userId = u
    · simp [findWallet, hw] at h
      rw [← h, hw]
    · simp [findWallet, hw] at h
      exact ih h

theorem findWallet_mem {ws : List Wallet} {u : Nat} {w : Wallet}
    (h : findWallet ws u = some w) : w ∈ ws := by
  induction ws with
  | nil => simp [findWallet] at h
  | cons w0 ws ih =>
    by_cases hw : w0.userId = u
    · simp [findWallet, hw] at h
      simp [h]
    · simp [findWallet, hw] at h
      exact List.mem_cons_of_mem _ (ih h)

theorem findWallet_setWallet_self {ws : List Wallet} {u : Nat} {w0 : Wallet}
    (w' : Wallet) (h : w'.userId = u) (hs : findWallet ws u = some w0) :
    findWallet (setWallet ws u w') u = some w' := by
  induction ws with
  | nil => simp [findWallet] at hs
  | cons w ws ih =>
    by_cases hw : w.userId = u
    · simp [setWallet, findWallet, hw, h]
    · simp [setWallet, findWallet, hw] at hs ⊢
      exact ih hs

theorem findWallet_setWallet_other (ws : List Wallet) (u : Nat) (w' : Wallet)
    (v : Nat) (hv : v ≠ u) (h : w'.userId = u) :
    findWallet (setWallet ws u w') v = findWallet ws v := by
  induction ws with
  | nil => simp [setWallet]
  | cons w ws ih =>
    by_cases hw : w.userId = u
    · have hwv : w.userId ≠ v := by rw [hw]; exact fun hh => hv hh.symm
      have hwv' : w'.userId ≠ v := by rw [h]; exact fun hh => hv hh.symm
      have huv : u ≠ v := fun hh => hv hh.symm
      simp [setWallet, findWallet, hw, hwv, hwv', huv]
    · by_cases hwv : w.userId = v
      · simp [setWallet, findWallet, hw, hwv, hv]
      · simp [setWallet, findWallet, hw, hwv, hv]
        exact ih

theorem mem_setWallet {ws : List Wallet} {u : Nat} {w' w'' : Wallet}
    (h : w'' ∈ setWallet ws u w') : w'' ∈ ws ∨ w'' = w' := by
  induction ws with
  | nil => simp [setWallet] at h
  | cons w ws ih =>
    by_cases hw : w.userId = u
    · simp [setWallet, hw] at h
      rcases h with h | h
      · right; exact h
      · left; exact List.mem_cons_of_mem _ h
    · simp [setWallet, hw] at h
      rcases h with h | h
      · left; simp [h]
      · rcases ih h with h | h
        · left; exact List.mem_cons_of_mem _ h
        · right; exact h

theorem entryAmount_credit_self (bs : List BalanceEntry) (c : String)
    (a : Rat) : entryAmount (creditBalances bs c a) c = entryAmount bs c + a := by
  induction bs with
  | nil => simp [creditBalances, entryAmount, findEntry]
  | cons b bs ih =>
    by_cases hb : b.currency = c
    · simp [creditBalances, entryAmount, findEntry, hb]
    · simp [creditBalances, entryAmount, findEntry, hb]
      exact ih

theorem entryAmount_debit_self {bs : List BalanceEntry} {c : String}
    {e : BalanceEntry} (a : Rat) (hs : findEntry bs c = some e) :
    entryAmount (debitBalances bs c a) c = entryAmount bs c - a := by
  induction bs with
  | nil => simp [findEntry] at hs
  | cons b bs ih =>
    by_cases hb : b.currency = c
    · simp [debitBalances, entryAmount, findEntry, hb]
    · simp [debitBalances, entryAmount, findEntry, hb] at hs ⊢
      exact ih hs

theorem mem_credit_nonneg {bs : List BalanceEntry} {c : String} {a : Rat}
    (ha : 0 ≤ a) (hbs : ∀ b ∈ bs, 0 ≤ b.amount) :
    ∀ b ∈ creditBalances bs c a, 0 ≤ b.amount := by
  induction bs with
  | nil =>
    intro b hb
    simp [creditBalances] at hb
    simp [hb, ha]
  | cons b bs ih =>
    intro b' hb'
    by_cases hb : b.currency = c
    · simp [creditBalances, hb] at hb'
      rcases hb' with hb' | hb'
      · have := hbs b (List.mem_cons_self _ _)
        simp [hb']
        positivity
      · exact hbs b' (List.mem_cons_of_mem _ hb')
    · simp [creditBalances, hb] at hb'
      rcases hb' with hb' | hb'
      · exact hb' ▸ hbs b (List.mem_cons_self _ _)
      · exact ih (fun x hx => hbs x (List.mem_cons_of_mem _ hx)) b' hb'

theorem mem_debit_nonneg {bs : List BalanceEntry} {c : String} {a : Rat}
    {e : BalanceEntry} (hbs : ∀ b ∈ bs, 0 ≤ b.amount)
    (he : findEntry bs c = some e) (hge : a ≤ e.amount) :
    ∀ b ∈ debitBalances bs c a, 0 ≤ b.amount := by
  induction bs with
  | nil => simp [findEntry] at he
  | cons b bs ih =>
    intro b' hb'
    by_cases hb : b.currency = c
    · simp [findEntry, hb] at he
      simp [debitBalances, hb] at hb'
      rcases hb' with hb' | hb'
      · rw [← he] at hge
        rw [hb']
        simp
        linarith
      · exact hbs b' (List.mem_cons_of_mem _ hb')
    · simp [findEntry, hb] at he
      simp [debitBalances, hb] at hb'
      rcases hb' with hb' | hb'
      · exact hb' ▸ hbs b (List.mem_cons_self _ _)
      · exact ih (fun x hx => hbs x (List.mem_cons_of_mem _ hx)) he b' hb'

theorem deposit_ok_state {f : Except String (List Txn)} {st : WState}
    {u : Nat} {c : String} {a : Rat} {t : Int} {p : WState × Rat}
    (h : deposit f st u c a t = Except.ok p) :
    ∃ w, findWallet st.wallets u = some w ∧
      p.1.wallets = setWallet st.wallets u
        { w with balances := creditBalances w.balances c a } := by
  unfold deposit at h
  cases hfw : findWallet st.wallets u with
  | none => rw [hfw] at h; simp at h
  | some w =>
    rw [hfw] at h
    dsimp only at h
    simp at h
    exact ⟨w, rfl, by rw [← h]⟩

theorem withdraw_ok_state {f : Except String (List Txn)} {st : WState}
    {u : Nat} {c : String} {a : Rat} {t : Int} {p : WState × Rat}
    (h : withdraw f st u c a t = Except.ok p) :
    ∃ w b, findWallet st.wallets u = some w ∧
      findEntry w.balances c = some b ∧ a ≤ b.amount ∧
      p.1.wallets = setWallet st.wallets u
        { w with balances := debitBalances w.balances c a } := by
  unfold withdraw at h
  cases hfw : findWallet st.wallets u with
  | none => rw [hfw] at h; simp at h
  | some w =>
    rw [hfw] at h
    dsimp only at h
    cases hfe : findEntry w.balances c with
    | none => rw [hfe] at h; simp at h
    | some b =>
      rw [hfe] at h
      dsimp only at h
      by_cases hlt : b.amount < a
      · rw [if_pos hlt] at h; simp at h
      · rw [if_neg hlt] at h
        simp at h
        exact ⟨w, b, rfl, hfe, not_lt.mp hlt, by rw [← h]⟩

theorem transfer_ok_state {f : Except String (List Txn)} {st : WState}
    {s d : Nat} {c : String} {a : Rat} {t : Int} {p : WState × Rat}
    (h : transfer f st s d c a t = Except.ok p) :
    ∃ sw rw sb, s ≠ d ∧ findWallet st.wallets d = some rw ∧
      findWallet st.wallets s = some sw ∧
      findEntry sw.balances c = some sb ∧ a ≤ sb.amount ∧
      p.1.wallets =
        setWallet (setWallet st.wallets s
            { sw with balances := debitBalances sw.balances c a }) d
          { rw with balances := creditBalances rw.balances c a } := by
  unfold transfer at h
  by_cases hsd : s = d
  · simp [hsd] at h
  · rw [if_neg (by simpa using hsd)] at h
    dsimp only at h
    cases hrw : findWallet st.wallets d with
    | none => rw [hrw] at h; simp at h
    | some rw =>
      rw [hrw] at h
      dsimp only at h
      cases hsw : findWallet st.wallets s with
      | none => rw [hsw] at h; simp at h
      | some sw =>
        rw [hsw] at h
        dsimp only at h
        cases hse : findEntry sw.balances c with
        | none => rw [hse] at h; simp at h
        | some sb =>
          rw [hse] at h
          dsimp only at h
          by_cases hlt : sb.amount < a
          · rw [if_pos hlt] at h; simp at h
          · rw [if_neg hlt] at h
            simp at h
            exact ⟨sw, rw, sb, hsd, rfl, rfl, hse, not_lt.mp hlt,
              by rw [← h]⟩

theorem applyOp_nonneg (st : WState) (op : Op) (ha : 0 ≤ op.amount)
    (h : AllNonneg st) : AllNonneg (applyOp st op) := by
  cases op with
  | dep u c a t =>
    cases hr : deposit (Except.ok st.log) st u c a t with
    | error e => simpa only [applyOp, hr] using h
    | ok p =>
      obtain ⟨w, hfw, hws⟩ := deposit_ok_state hr
      simp only [applyOp, hr]
      intro w'' hw'' b hb
      rw [hws] at hw''
      rcases mem_setWallet hw'' with hmem | hmem
      · exact h w'' hmem b hb
      · subst hmem
        exact mem_credit_nonneg ha (h w (findWallet_mem hfw)) b hb
  | wd u c a t =>
    cases hr : withdraw (Except.ok st.log) st u c a t with
    | error e => simpa only [applyOp, hr] using h
    | ok p =>
      obtain ⟨w, e, hfw, hfe, hge, hws⟩ := withdraw_ok_state hr
      simp only [applyOp, hr]
      intro w'' hw'' b hb
      rw [hws] at hw''
      rcases mem_setWallet hw'' with hmem | hmem
      · exact h w'' hmem b hb
      · subst hmem
        exact mem_debit_nonneg (h w (findWallet_mem hfw)) hfe hge b hb
  | tr s d c a t =>
    cases hr : transfer (Except.ok st.log) st s d c a t with
    | error e => simpa only [applyOp, hr] using h
    | ok p =>
      obtain ⟨sw, rw, sb, hsd, hrw, hsw, hse, hge, hws⟩ := transfer_ok_state hr
      simp only [applyOp, hr]
      intro w'' hw'' b hb
      rw [hws] at hw''
      rcases mem_setWallet hw'' with hmem | hmem
      · rcases mem_setWallet hmem with hmem' | hmem'
        · exact h w'' hmem' b hb
        · subst hmem'
          exact mem_debit_nonneg (h sw (findWallet_mem hsw)) hse hge b hb
      · subst hmem
        exact mem_credit_nonneg ha (h rw (findWallet_mem hrw)) b hb

/-! ## Concrete instances used in closed theorems -/

/-- A completed withdrawal of a given amount by user 1 at a given time. -/
def exW (amt : Rat) (t : Int) : Txn :=
  ⟨some 1, none, TxnType.withdrawal, amt, "USD", TxnStatus.completed,
    false, none, false, t⟩

/-- Three recent withdrawals by user 1 totaling 6000. -/
def exLog3W : List Txn := [exW 2000 3600000, exW 2000 3600001, exW 2000 3600002]

/-- A completed transfer from user 1 to user 2 inside the scan window. -/
def exT12 : Txn :=
  ⟨some 1, some 2, TxnType.transfer, 10, "USD", TxnStatus.completed,
    false, none, false, 5⟩

/-- Twenty-one transfers from user 1 to user 2. -/
def exLog21 : List Txn := List.replicate 21 exT12

/-- Two live wallets: user 1 holds 100 USD, user 2 holds 5 USD. -/
def exStA : WState :=
  ⟨[⟨1, [⟨"USD", 100⟩], false⟩, ⟨2, [⟨"USD", 5⟩], false⟩], []⟩

/-- The state after transferring 30 USD from user 1 to user 2 in exStA. -/
def exStA1 : WState :=
  ⟨[⟨1, [⟨"USD", 70⟩], false⟩, ⟨2, [⟨"USD", 35⟩], false⟩],
    [mkTxn (some 1) (some 2) TxnType.transfer 30 "USD" ⟨false, none⟩ 0]⟩

/-- User 1 live with 100 USD; the wallet of user 2 is soft-deleted. -/
def exStD : WState :=
  ⟨[⟨1, [⟨"USD", 100⟩], false⟩, ⟨2, [], true⟩], []⟩

/-- The state after transferring 30 USD from user 1 to the soft-deleted
wallet of user 2 in exStD. -/
def exStD1 : WState :=
  ⟨[⟨1, [⟨"USD", 70⟩], false⟩, ⟨2, [⟨"USD", 30⟩], true⟩],
    [mkTxn (some 1) (some 2) TxnType.transfer 30 "USD" ⟨false, none⟩ 0]⟩

/-- A short operation sequence: deposit, withdrawal, transfer. -/
def exOps : List Op := [Op.dep 1 "USD" 5 0, Op.wd 1 "USD" 20 1, Op.tr 1 2 "USD" 30 2]

/-- The part of an operation result independent of the fraud decision:
error outcome, wallet collection and returned balance (the appended log
record carries the flag fields). -/
def opOutcome (r : Except WalletErr (WState × Rat)) :
    Except WalletErr (List Wallet × Rat) :=
  r.map (fun p => (p.1.wallets, p.2))

instance {ε α : Type} [DecidableEq ε] [DecidableEq α] :
    DecidableEq (Except ε α) := fun x y =>
  match x, y with
  | Except.ok a, Except.ok b =>
    if h : a = b then isTrue (by rw [h]) else isFalse (by simp [h])
  | Except.error a, Except.error b =>
    if h : a = b then isTrue (by rw [h]) else isFalse (by simp [h])
  | Except.ok _, Except.error _ => isFalse (by simp)
  | Except.error _, Except.ok _ => isFalse (by simp)

/-! ## Claim theorems -/

/-- C7: a transfer whose source user equals the destination user is
rejected with the self-transfer validation error; the check runs before any
wallet read, and an error result carries no state change. -/
theorem self_transfer_rejected (f : Except String (List Txn)) (st : WState)
    (u : Nat) (c : String) (a : Rat) (t : Int) :
    transfer f st u u c a t = Except.error WalletErr.selfTransfer := by
  simp [transfer]

/-- C5: fraud evaluation is fail-open. A failing history store makes
checkFraudRules return a not-flagged result, and the success or error
outcome of every operation (including wallet balances and returned
balance) is independent of the fraud store, so an evaluation failure is
never propagated as an operation failure. -/
theorem fraud_eval_fail_open (e : String) (st : WState) (u v : Nat)
    (c : String) (a : Rat) (t : Int) (ty : TxnType)
    (f g : Except String (List Txn)) :
    checkFraudRules (Except.error e) u ty a t = ⟨false, none⟩ ∧
    opOutcome (deposit f st u c a t) = opOutcome (deposit g st u c a t) ∧
    opOutcome (withdraw f st u c a t) = opOutcome (withdraw g st u c a t) ∧
    opOutcome (transfer f st u v c a t) = opOutcome (transfer g st u v c a t) := by
  refine ⟨rfl, ?_, ?_, ?_⟩
  · cases hfw : findWallet st.wallets u with
    | none => simp [deposit, hfw, opOutcome, Except.map]
    | some w => simp [deposit, hfw, opOutcome, Except.map]
  · cases hfw : findWallet st.wallets u with
    | none => simp [withdraw, hfw, opOutcome, Except.map]
    | some w =>
      cases hfe : findEntry w.balances c with
      | none => simp [withdraw, hfw, hfe, opOutcome, Except.map]
      | some b =>
        by_cases hlt : b.amount < a <;>
          simp [withdraw, hfw, hfe, hlt, opOutcome, Except.map]
  · by_cases hsd : u = v
    · simp [transfer, hsd, opOutcome, Except.map]
    · cases hrw : findWallet st.wallets v with
      | none => simp [transfer, hsd, hrw, opOutcome, Except.map]
      | some rw =>
        cases hsw : findWallet st.wallets u with
        | none => simp [transfer, hsd, hrw, hsw, opOutcome, Except.map]
        | some sw =>
          cases hse : findEntry sw.balances c with
          | none => simp [transfer, hsd, hrw, hsw, hse, opOutcome, Except.map]
          | some sb =>
            by_cases hlt : sb.amount < a <;>
              simp [transfer, hsd, hrw, hsw, hse, hlt, opOutcome, Except.map]

/-- C4: the fraud rules are evaluated in strict order with the first match
winning: at least 5 recent records as source or destination gives
high_frequency; otherwise an amount of at least 10000 gives large_amount;
otherwise the withdrawal-pattern rule; otherwise not flagged, so exactly
one reason is ever produced. -/
theorem fraud_rules_first_match (log : List Txn) (u : Nat) (ty : TxnType)
    (a : Rat) (now : Int) :
    (5 ≤ countRecent log u (now - msPerHour) →
      checkFraudRulesOk log u ty a now = ⟨true, some FlagReason.high_frequency⟩) ∧
    (countRecent log u (now - msPerHour) < 5 → 10000 ≤ a →
      checkFraudRulesOk log u ty a now = ⟨true, some FlagReason.large_amount⟩) ∧
    (countRecent log u (now - msPerHour) < 5 → a < 10000 →
      ty = TxnType.withdrawal →
      3 ≤ (recentWithdrawals log u (now - msPerHour)).length →
      5000 ≤ totalWithdrawn log u (now - msPerHour) →
      checkFraudRulesOk log u ty a now = ⟨true, some FlagReason.suspicious_pattern⟩) ∧
    (countRecent log u (now - msPerHour) < 5 → a < 10000 →
      (ty ≠ TxnType.withdrawal ∨
        (recentWithdrawals log u (now - msPerHour)).length < 3 ∨
        totalWithdrawn log u (now - msPerHour) < 5000) →
      checkFraudRulesOk log u ty a now = ⟨false, none⟩) := by
  refine ⟨?_, ?_, ?_, ?_⟩
  · intro h1
    unfold checkFraudRulesOk
    rw [if_pos h1]
  · intro h1 h2
    unfold checkFraudRulesOk
    rw [if_neg (not_le.mpr h1), if_pos h2]
  · intro h1 h2 hty h3 h4
    unfold checkFraudRulesOk
    rw [if_neg (not_le.mpr h1), if_neg (not_le.mpr h2), hty]
    simp only [beq_self_eq_true, if_true]
    rw [if_pos ⟨h3, h4⟩]
  · intro h1 h2 hcase
    unfold checkFraudRulesOk
    rw [if_neg (not_le.mpr h1), if_neg (not_le.mpr h2)]
    rcases hcase with hty | hlen | htot
    · rw [if_neg (by simpa using hty)]
    · by_cases hty : ty = TxnType.withdrawal
      · rw [hty]
        simp only [beq_self_eq_true, if_true]
        rw [if_neg (fun hc => absurd hc.1 (not_le.mpr hlen))]
      · rw [if_neg (by simpa using hty)]
    · by_cases hty : ty = TxnType.withdrawal
      · rw [hty]
        simp only [beq_self_eq_true, if_true]
        rw [if_neg (fun hc => absurd hc.2 (not_le.mpr htot))]
      · rw [if_neg (by simpa using hty)]

/-- C4 witness: with an empty history, a deposit of exactly 10000 is
flagged large_amount and a deposit of 9999.99 is not flagged. -/
theorem fraud_rules_first_match_witness :
    checkFraudRulesOk [] 7 TxnType.deposit 10000 0 =
      ⟨true, some FlagReason.large_amount⟩ ∧
    checkFraudRulesOk [] 7 TxnType.deposit (9999.99 : Rat) 0 = ⟨false, none⟩ := by
  constructor
  · exact (fraud_rules_first_match [] 7 TxnType.deposit 10000 0).2.1
      (by decide) (by norm_num)
  · exact (fraud_rules_first_match [] 7 TxnType.deposit (9999.99 : Rat) 0).2.2.2
      (by decide) (by norm_num) (Or.inl (by decide))

/-- C1 counterexample: user 1 has exactly three prior non-deleted
withdrawals in the last hour totaling 6000, yet evaluating a fourth
withdrawal of the positive amount 10000 reports large_amount, not
suspicious_pattern, because the large-amount rule fires first. -/
theorem fourth_withdrawal_counterexample :
    (recentWithdrawals exLog3W 1 (3600010 - msPerHour)).length = 3 ∧
    5000 ≤ totalWithdrawn exLog3W 1 (3600010 - msPerHour) ∧
    (0 : Rat) < 10000 ∧
    checkFraudRulesOk exLog3W 1 TxnType.withdrawal 10000 3600010 =
      ⟨true, some FlagReason.large_amount⟩ ∧
    checkFraudRulesOk exLog3W 1 TxnType.withdrawal 10000 3600010 ≠
      ⟨true, some FlagReason.suspicious_pattern⟩ := by
  refine ⟨by decide, ?_, by norm_num, by decide, by decide⟩
  show (5000 : Rat) ≤ totalWithdrawn exLog3W 1 (3600010 - msPerHour)
  norm_num [totalWithdrawn, recentWithdrawals, exLog3W, exW, msPerHour]

/-- C1 amended: with exactly three prior non-deleted withdrawals in the
last hour totaling at least 5000, a fourth withdrawal of any positive
amount is reported suspicious_pattern, provided the earlier rules do not
fire first: the amount stays below 10000 and the user has fewer than 5
recent records overall. -/
theorem fourth_withdrawal_flagged (log : List Txn) (u : Nat) (a : Rat)
    (now : Int)
    (h3 : (recentWithdrawals log u (now - msPerHour)).length = 3)
    (htot : 5000 ≤ totalWithdrawn log u (now - msPerHour))
    (hcnt : countRecent log u (now - msPerHour) < 5)
    (hpos : 0 < a) (hlt : a < 10000) :
    checkFraudRulesOk log u TxnType.withdrawal a now =
      ⟨true, some FlagReason.suspicious_pattern⟩ := by
  unfold checkFraudRulesOk
  rw [if_neg (not_le.mpr hcnt), if_neg (not_le.mpr hlt)]
  simp only [beq_self_eq_true, if_true]
  rw [if_pos ⟨by rw [h3], htot⟩]

/-- C1 witness: three withdrawals of 2000 within the hour followed by a
fourth withdrawal of 50 are reported suspicious_pattern. -/
theorem fourth_withdrawal_flagged_witness :
    checkFraudRulesOk exLog3W 1 TxnType.withdrawal 50 3600010 =
      ⟨true, some FlagReason.suspicious_pattern⟩ :=
  fourth_withdrawal_flagged exLog3W 1 50 3600010 (by decide)
    (by norm_num [totalWithdrawn, recentWithdrawals, exLog3W, exW, msPerHour])
    (by decide) (by norm_num) (by norm_num)

/-- C2 counterexample: twenty-one transfers from user 1 to user 2 inside
the window. User 2 participates in 21 non-deleted records, more than 20,
yet the daily scan reports only user 1: the destination of a transfer is
never counted because each record is attributed to its source when one is
present. -/
theorem daily_scan_counterexample :
    participantCount exLog21 0 10 2 = 21 ∧
    20 < participantCount exLog21 0 10 2 ∧
    2 ∉ suspiciousUsers exLog21 0 10 ∧
    suspiciousUsers exLog21 0 10 = [1] := by decide

/-- C2 amended: the daily scan attributes each non-deleted window record to
exactly one user, the source when present and the destination otherwise,
and reports precisely the users whose attributed record count exceeds 20
with reason excessive_daily_transactions. -/
theorem daily_scan_reports_iff (log : List Txn) (s e : Int) (u : Nat) :
    u ∈ suspiciousUsers log s e ↔ 20 < userTransactionCount log s e u := by
  unfold suspiciousUsers
  rw [List.mem_filter]
  constructor
  · intro h
    simpa using h.2
  · intro h
    refine ⟨?_, by simpa using h⟩
    rw [List.mem_dedup]
    have hpos : 0 < userTransactionCount log s e u := by omega
    unfold userTransactionCount at hpos
    exact List.count_pos_iff.mp hpos

/-- C3: a withdrawal whose amount exceeds the balance held in the requested
currency, or for which no entry in that currency exists, is rejected with
the insufficient-funds error regardless of the fraud store, and the state
(wallet balances and transaction log) is unchanged. -/
theorem withdraw_insufficient_rejected (f : Except String (List Txn))
    (st : WState) (u : Nat) (c : String) (a : Rat) (t : Int) (w : Wallet)
    (hw : findWallet st.wallets u = some w)
    (hlt : ∀ b, findEntry w.balances c = some b → b.amount < a) :
    withdraw f st u c a t = Except.error WalletErr.insufficientFunds ∧
    applyOp st (Op.wd u c a t) = st := by
  have key : ∀ g : Except String (List Txn),
      withdraw g st u c a t = Except.error WalletErr.insufficientFunds := by
    intro g
    unfold withdraw
    rw [hw]
    dsimp only
    cases hfe : findEntry w.balances c with
    | none => rfl
    | some b =>
      dsimp only
      rw [if_pos (hlt b hfe)]
  exact ⟨key f, by simp only [applyOp, key (Except.ok st.log)]⟩

/-- C3 witness: withdrawing 500 USD from a wallet holding 100 USD is
rejected with insufficient funds and the state is unchanged. -/
theorem withdraw_insufficient_rejected_witness :
    withdraw (Except.ok []) exStA 1 "USD" 500 0 =
      Except.error WalletErr.insufficientFunds ∧
    applyOp exStA (Op.wd 1 "USD" 500 0) = exStA :=
  withdraw_insufficient_rejected (Except.ok []) exStA 1 "USD" 500 0
    ⟨1, [⟨"USD", 100⟩], false⟩ (by decide)
    (by
      intro b hb
      simp [findEntry] at hb
      rw [← hb]
      norm_num)

/-- C6: a committed transfer decreases the source balance in the
transferred currency by exactly the amount, increases the destination
balance by exactly the amount (an absent destination entry counting as
zero), and leaves the sum of the two balances unchanged. -/
theorem transfer_conservation (f : Except String (List Txn)) (st : WState)
    (src dst : Nat) (c : String) (a : Rat) (t : Int) (p : WState × Rat)
    (hok : transfer f st src dst c a t = Except.ok p) :
    getBalance p.1 src c = getBalance st src c - a ∧
    getBalance p.1 dst c = getBalance st dst c + a ∧
    getBalance p.1 src c + getBalance p.1 dst c
      = getBalance st src c + getBalance st dst c := by
  obtain ⟨sw, rw, sb, hsd, hrw, hsw, hse, hge, hws⟩ := transfer_ok_state hok
  have hsu0 : sw.userId = src := findWallet_userId hsw
  have hru0 : rw.userId = dst := findWallet_userId hrw
  have hsu : ({ sw with balances := debitBalances sw.balances c a } :
      Wallet).userId = src := hsu0
  have hru : ({ rw with balances := creditBalances rw.balances c a } :
      Wallet).userId = dst := hru0
  have h1 : getBalance p.1 src c = getBalance st src c - a := by
    unfold getBalance
    rw [hws, hsw]
    rw [findWallet_setWallet_other _ dst _ src hsd hru]
    rw [findWallet_setWallet_self _ hsu hsw]
    dsimp only
    exact entryAmount_debit_self a hse
  have h2 : getBalance p.1 dst c = getBalance st dst c + a := by
    unfold getBalance
    rw [hws, hrw]
    have hin : findWallet (setWallet st.wallets src
        { sw with balances := debitBalances sw.balances c a }) dst =
        some rw := by
      rw [findWallet_setWallet_other _ src _ dst (fun hh => hsd hh.symm) hsu]
      exact hrw
    rw [findWallet_setWallet_self _ hru hin]
    dsimp only
    exact entryAmount_credit_self rw.balances c a
  exact ⟨h1, h2, by rw [h1, h2]; ring⟩

/-- C6 witness: transferring 30 USD from user 1 (100 USD) to user 2
(5 USD) yields balances 70 and 35, moving exactly 30 and conserving the
sum. -/
theorem transfer_conservation_witness :
    getBalance exStA1 1 "USD" = getBalance exStA 1 "USD" - 30 ∧
    getBalance exStA1 2 "USD" = getBalance exStA 2 "USD" + 30 ∧
    getBalance exStA1 1 "USD" + getBalance exStA1 2 "USD"
      = getBalance exStA 1 "USD" + getBalance exStA 2 "USD" :=
  transfer_conservation (Except.ok []) exStA 1 2 "USD" 30 0 (exStA1, 70)
    (by
      simp [transfer, checkFraudRules, checkFraudRulesOk, countRecent,
        recentWithdrawals, totalWithdrawn, findWallet, findEntry, setWallet,
        creditBalances, debitBalances, mkTxn, exStA, exStA1, msPerHour]
      norm_num)

/-- C8 counterexample: a deposit by a user with no wallet does not create
one; the handler throws on the missing document and the operation fails
with an internal error, leaving the state unchanged. -/
theorem deposit_no_wallet_errors :
    deposit (Except.ok []) ⟨[], []⟩ 1 "USD" 50 0 =
      Except.error WalletErr.internalError ∧
    applyOp ⟨[], []⟩ (Op.dep 1 "USD" 50 0) = (⟨[], []⟩ : WState) := by
  constructor <;> rfl

/-- C8 amended: a new wallet saved with an empty balance array is seeded
with a single zero USD entry by the schema hook, and credit creates the
requested currency entry at zero before adding when it is absent; but the
deposit handler itself does not create a missing wallet — such a deposit
fails with an internal error. -/
theorem lazy_wallet_amended :
    (∀ uid : Nat, (walletOnSave true ⟨uid, [], false⟩).balances =
      [⟨"USD", 0⟩]) ∧
    (∀ (f : Except String (List Txn)) (st : WState) (u : Nat) (c : String)
      (a : Rat) (t : Int), findWallet st.wallets u = none →
      deposit f st u c a t = Except.error WalletErr.internalError) ∧
    (∀ (bs : List BalanceEntry) (c : String) (a : Rat),
      findEntry bs c = none →
      entryAmount (creditBalances bs c a) c = 0 + a) := by
  refine ⟨fun uid => rfl, ?_, ?_⟩
  · intro f st u c a t hfw
    unfold deposit
    rw [hfw]
  · intro bs c a hfe
    rw [entryAmount_credit_self]
    have hz : entryAmount bs c = 0 := by
      unfold entryAmount
      rw [hfe]
      rfl
    rw [hz]

/-- C8 witness: the seed hook, the failing deposit without a wallet, and
entry creation at zero, each at a concrete input. -/
theorem lazy_wallet_amended_witness :
    (walletOnSave true ⟨9, [], false⟩).balances = [⟨"USD", 0⟩] ∧
    deposit (Except.ok []) ⟨[], []⟩ 2 "USD" 25 0 =
      Except.error WalletErr.internalError ∧
    entryAmount (creditBalances [] "EUR" 5) "EUR" = 0 + 5 :=
  ⟨lazy_wallet_amended.1 9,
   lazy_wallet_amended.2.1 (Except.ok []) ⟨[], []⟩ 2 "USD" 25 0 rfl,
   lazy_wallet_amended.2.2 [] "EUR" 5 rfl⟩

/-- C9: starting from wallets whose entries are all non-negative, any
sequence of deposit, withdrawal and transfer operations with positive
amounts keeps every wallet entry non-negative; withdrawals and transfers
only commit when the source entry covers the amount, and rejected
operations leave the state unchanged. -/
theorem nonneg_invariant (st : WState) (ops : List Op)
    (hpos : ∀ op ∈ ops, 0 < op.amount) (h0 : AllNonneg st) :
    AllNonneg (runOps st ops) := by
  induction ops generalizing st with
  | nil => exact h0
  | cons op ops ih =>
    show AllNonneg (runOps (applyOp st op) ops)
    exact ih (applyOp st op)
      (fun o ho => hpos o (List.mem_cons_of_mem _ ho))
      (applyOp_nonneg st op
        (le_of_lt (hpos op (List.mem_cons_self _ _))) h0)

/-- C9 witness: a deposit, a withdrawal and a transfer run from two
non-negative wallets keep all entries non-negative. -/
theorem nonneg_invariant_witness : AllNonneg (runOps exStA exOps) :=
  nonneg_invariant exStA exOps (by decide) (by decide)

/-- C10: the recipient-wallet lookup of the transfer handler does not
filter on the soft-delete flag, so a transfer to a user whose wallet is
soft-deleted does not fail with wallet-not-found: it completes and credits
the soft-deleted wallet. -/
theorem transfer_credits_deleted_wallet :
    (findWallet exStD.wallets 2).map (fun w => w.isDeleted) = some true ∧
    transfer (Except.ok []) exStD 1 2 "USD" 30 0 = Except.ok (exStD1, 70) ∧
    getBalance exStD1 2 "USD" = 30 ∧
    (findWallet exStD1.wallets 2).map (fun w => w.isDeleted) = some true := by
  refine ⟨rfl, ?_, by decide, rfl⟩
  simp [transfer, checkFraudRules, checkFraudRulesOk, countRecent,
    recentWithdrawals, totalWithdrawn, findWallet, findEntry, setWallet,
    creditBalances, debitBalances, mkTxn, exStD, exStD1, msPerHour]
  norm_num

end DigitalWallet

